import Mathlib

/-!
Verification development for the Encrypted-Database-Practice repository.

The repository is a small credential vault written in Python:
AES256.py (AES-256-GCM with PBKDF2 key derivation), Argon2id.py (password
hashing with pepper and per-identity variable salt, plus a metadata
container), HMAC.py (blind index), User.py / SQLite_Database.py (record
store), and Server.py (the orchestrator).

The embedding below follows the source line by line.  Calls into
third-party libraries (PyCryptodome's PBKDF2 and AES-GCM, Python's
base64 codec, argon2-cffi, Python's hmac) are modelled as abstract
primitive functions collected in structures; the documented contracts of
those libraries are stated as separate `Prop`s and taken as hypotheses of
the theorems.  Everything the repository itself computes (blob layout,
slicing, metadata serialization and parsing, orchestration of the store)
is modelled concretely.

Conventions:
* Python `bytes` values are `List Nat` (each entry a byte; the theorems
  hold for arbitrary naturals, a superset).
* A Python `str` is a Lean `String`; where the code converts a string to
  UTF-8 bytes we use the sequence of code points (`strBytes`), an
  injective byte-level representation whose exact coding is immaterial
  to the claims.
* Randomness (`os.urandom`, argon2's internal salt) is passed as explicit
  arguments, so "for every fresh random salt" becomes a universal
  quantifier.
-/

set_option autoImplicit false

namespace EncryptedDB

/-- Byte strings, as produced by Python `bytes`. -/
abbrev Bytes := List Nat

/-- Model of `str.encode('utf-8')`: the sequence of code points of the
string (an injective byte-level representation of the text). -/
def strBytes (s : String) : Bytes :=
  s.data.map Char.toNat

/-- Decode a single byte back into a character; `none` when the value is
not a valid code point. -/
def byteChar? (b : Nat) : Option Char :=
  if h : b.isValidChar then some (Char.ofNatAux b h) else none

/-- Decode a byte list back into characters, failing on the first invalid
entry. -/
def charsOf? : Bytes → Option (List Char)
  | [] => some []
  | b :: bs =>
    match byteChar? b, charsOf? bs with
    | some c, some cs => some (c :: cs)
    | _, _ => none

/-- Model of `bytes.decode('utf-8')`: recover the string when every entry
is a valid code point, fail (`UnicodeDecodeError`) otherwise. -/
def bytesStr? (bs : Bytes) : Option String :=
  match charsOf? bs with
  | some cs => some (String.mk cs)
  | none => none

theorem charOfNatAux_toNat (c : Char) (h : c.toNat.isValidChar) :
    Char.ofNatAux c.toNat h = c := by
  apply Char.eq_of_val_eq
  apply UInt32.ext
  simp [Char.ofNatAux, Char.toNat, UInt32.toNat]

theorem byteChar?_toNat (c : Char) : byteChar? c.toNat = some c := by
  have h : c.toNat.isValidChar := c.valid
  simp [byteChar?, dif_pos h, charOfNatAux_toNat]

theorem charsOf?_map_toNat (l : List Char) :
    charsOf? (l.map Char.toNat) = some l := by
  induction l with
  | nil => rfl
  | cons c cs ih => simp [charsOf?, byteChar?_toNat, ih]

theorem bytesStr?_strBytes (s : String) : bytesStr? (strBytes s) = some s := by
  cases s with
  | mk data => simp [bytesStr?, strBytes, charsOf?_map_toNat]

/-- Model of Python `str.split(sep)` for a one-character separator,
acting on the character list.  `split` on an empty string yields `[""]`,
as in Python. -/
def splitSep (sep : Char) : List Char → List (List Char)
  | [] => [[]]
  | c :: rest =>
    match splitSep sep rest with
    | [] => [[]]
    | g :: gs => if c = sep then [] :: g :: gs else (c :: g) :: gs

/-- `splitSep` on the string level. -/
def splitSepStr (sep : Char) (s : String) : List String :=
  (splitSep sep s.data).map String.mk

/-! ## AES256.py

`class AES256`: AES-256-GCM with PBKDF2 key derivation.  The library
primitives (PyCryptodome `PBKDF2`, `AES.new(..., MODE_GCM)`, and Python's
`base64`) are abstract functions in `CryptoPrims`; their documented
contracts are the `Prop`s that follow.  The base64 text output
(`.decode('utf-8')` of the base64 bytes) is modelled as its byte
sequence. -/

/-- The runtime library primitives used by `AES256.py`. -/
structure CryptoPrims where
  /-- `PBKDF2(passphrase, salt, dkLen=32, count=iterations)`. -/
  pbkdf2 : Bytes → Bytes → Nat → Bytes
  /-- `cipher.encrypt_and_digest(pt)` for `AES.new(key, MODE_GCM, nonce)`:
  returns `(ciphertext, tag)`. -/
  gcmEncrypt : Bytes → Bytes → Bytes → Bytes × Bytes
  /-- `cipher.decrypt_and_verify(ciphertext, tag)`: `some plaintext` on
  success, `none` when the MAC check fails (the `ValueError` path). -/
  gcmDecryptVerify : Bytes → Bytes → Bytes → Bytes → Option Bytes
  /-- `base64.b64encode(blob).decode('utf-8')`, as bytes. -/
  b64encode : Bytes → Bytes
  /-- `base64.b64decode(text)`: `none` when decoding raises. -/
  b64decode : Bytes → Option Bytes

/-- Library contract: GCM decryption with the same key and nonce inverts
encryption and accepts the produced tag. -/
def GcmRoundTrip (P : CryptoPrims) : Prop :=
  ∀ key nonce pt,
    P.gcmDecryptVerify key nonce (P.gcmEncrypt key nonce pt).1
      (P.gcmEncrypt key nonce pt).2 = some pt

/-- Library contract: the authentication tag produced by GCM encryption is
16 bytes (PyCryptodome's default `mac_len`). -/
def GcmTagLen16 (P : CryptoPrims) : Prop :=
  ∀ key nonce pt, ((P.gcmEncrypt key nonce pt).2).length = 16

/-- Library contract: `decrypt_and_verify` only ever accepts a 16-byte
tag (a tag of any other length cannot equal the computed MAC). -/
def GcmAcceptsOnly16 (P : CryptoPrims) : Prop :=
  ∀ key nonce ct tag pt,
    P.gcmDecryptVerify key nonce ct tag = some pt → tag.length = 16

/-- Library contract: base64 decoding inverts encoding. -/
def B64RoundTrip (P : CryptoPrims) : Prop :=
  ∀ bs, P.b64decode (P.b64encode bs) = some bs

/-- The attributes of `class AES256` (src/AES256.py lines 29–38):
passphrase (already UTF-8 encoded), salt/nonce/tag sizes and the PBKDF2
iteration count. -/
structure AES256 where
  passphrase : Bytes
  salt_size : Nat
  nonce_size : Nat
  tag_size : Nat
  kdf_iterations : Nat
deriving DecidableEq

/-- `AES256(passphrase)` with the constructor's default parameters
(salt 16, nonce 12, tag 16, 100000 PBKDF2 rounds). -/
def AES256.init (passphrase : String) : AES256 :=
  ⟨strBytes passphrase, 16, 12, 16, 100000⟩

/-- `AES256._derive_key` (line 40–41). -/
def AES256.derive_key (P : CryptoPrims) (c : AES256) (salt : Bytes) : Bytes :=
  P.pbkdf2 c.passphrase salt c.kdf_iterations

/-- `AES256.encrypt` (lines 43–54).  The fresh random `salt` and `nonce`
drawn by `os.urandom` are explicit arguments.  Output layout:
`salt || nonce || tag || ciphertext`, base64-encoded. -/
def AES256.encrypt (P : CryptoPrims) (c : AES256) (salt nonce : Bytes)
    (plaintext : String) : Bytes :=
  let key := AES256.derive_key P c salt
  let ctTag := P.gcmEncrypt key nonce (strBytes plaintext)
  P.b64encode (salt ++ nonce ++ ctTag.2 ++ ctTag.1)

/-- The failure modes of `AES256.decrypt`; in Python all surface as
exceptions from the libraries (`binascii.Error`, `ValueError` from
`AES.new` on an empty nonce, `ValueError("MAC check failed")`,
`UnicodeDecodeError`).  The spec's taxonomy calls the tag/decoding
failures `AuthenticationError`. -/
inductive DecryptError
  | decodeFailed
  | emptyNonce
  | macCheckFailed
  | unicodeError
deriving DecidableEq, Repr

/-- `AES256.decrypt` (lines 56–70): base64-decode, slice off
`salt`/`nonce`/`tag` by the configured sizes, re-derive the key, and
`decrypt_and_verify`.  There is no explicit length check; short inputs
are rejected because a truncated tag can never verify. -/
def AES256.decrypt (P : CryptoPrims) (c : AES256) (b64_input : Bytes) :
    Except DecryptError String :=
  match P.b64decode b64_input with
  | none => .error .decodeFailed
  | some data =>
    let salt := data.take c.salt_size
    let nonce := (data.drop c.salt_size).take c.nonce_size
    let tag := (data.drop (c.salt_size + c.nonce_size)).take c.tag_size
    let ciphertext := data.drop (c.salt_size + c.nonce_size + c.tag_size)
    if nonce.length = 0 then .error .emptyNonce
    else
      let key := AES256.derive_key P c salt
      match P.gcmDecryptVerify key nonce ciphertext tag with
      | none => .error .macCheckFailed
      | some pt =>
        match bytesStr? pt with
        | some s => .ok s
        | none => .error .unicodeError

/-- `AES256.get_metadata` (lines 72–84). -/
def AES256.get_metadata (c : AES256) : String :=
  String.intercalate ","
    ["AES256,GCM,PBKDF2", toString c.kdf_iterations, toString c.salt_size,
     toString c.nonce_size, toString c.tag_size]

/-- Splitting the `salt || nonce || tag || ct` blob at the configured
sizes recovers the four components. -/
theorem blob_slices (salt nonce tag ct : Bytes)
    (hs : salt.length = 16) (hn : nonce.length = 12) (ht : tag.length = 16) :
    (salt ++ nonce ++ tag ++ ct).take 16 = salt ∧
    ((salt ++ nonce ++ tag ++ ct).drop 16).take 12 = nonce ∧
    ((salt ++ nonce ++ tag ++ ct).drop (16 + 12)).take 16 = tag ∧
    (salt ++ nonce ++ tag ++ ct).drop (16 + 12 + 16) = ct := by
  have hassoc : salt ++ nonce ++ tag ++ ct = salt ++ (nonce ++ (tag ++ ct)) := by
    simp [List.append_assoc]
  have h1 : (salt ++ (nonce ++ (tag ++ ct))).take 16 = salt := List.take_left' hs
  have h2 : (salt ++ (nonce ++ (tag ++ ct))).drop 16 = nonce ++ (tag ++ ct) :=
    List.drop_left' hs
  have h3 : (nonce ++ (tag ++ ct)).take 12 = nonce := List.take_left' hn
  have h4 : (nonce ++ (tag ++ ct)).drop 12 = tag ++ ct := List.drop_left' hn
  have h5 : (tag ++ ct).take 16 = tag := List.take_left' ht
  have h6 : (tag ++ ct).drop 16 = ct := List.drop_left' ht
  rw [hassoc]
  refine ⟨h1, ?_, ?_, ?_⟩
  · rw [h2]; exact h3
  · rw [← List.drop_drop, h2, h4]; exact h5
  · rw [show (16 + 12 + 16 : Nat) = 16 + ((16 + 12 + 16) - 16) from rfl,
      ← List.drop_drop, h2]
    rw [show ((16 + 12 + 16 : Nat) - 16) = 12 + 16 from rfl, ← List.drop_drop, h4]
    exact h6

/-- **C1.** For every string `s` and valid key material, decrypting the
result of encrypting `s` returns `s`: for a cipher constructed with a
passphrase (default sizes 16/12/16), any fresh salt of length 16 and
nonce of length 12 drawn by `encrypt` round-trip through `decrypt`,
assuming the documented contracts of base64 and AES-GCM. -/
theorem aes256_decrypt_encrypt_roundtrip (P : CryptoPrims) (pass : String)
    (salt nonce : Bytes) (s : String)
    (hgcm : GcmRoundTrip P) (hb64 : B64RoundTrip P) (htag : GcmTagLen16 P)
    (hsalt : salt.length = 16) (hnonce : nonce.length = 12) :
    AES256.decrypt P (AES256.init pass)
      (AES256.encrypt P (AES256.init pass) salt nonce s) = Except.ok s := by
  have hsz : (AES256.init pass).salt_size = 16 := rfl
  have hnz : (AES256.init pass).nonce_size = 12 := rfl
  have htz : (AES256.init pass).tag_size = 16 := rfl
  simp only [AES256.encrypt, AES256.decrypt, hsz, hnz, htz]
  rw [hb64]
  obtain ⟨t1, t2, t3, t4⟩ :=
    blob_slices salt nonce
      (P.gcmEncrypt (AES256.derive_key P (AES256.init pass) salt) nonce
        (strBytes s)).2
      (P.gcmEncrypt (AES256.derive_key P (AES256.init pass) salt) nonce
        (strBytes s)).1
      hsalt hnonce (htag _ _ _)
  dsimp only
  rw [t1, t2, t3, t4, hnonce]
  simp only [OfNat.ofNat_ne_zero, if_false, hgcm _ _ _, bytesStr?_strBytes]

/-- **C2.** `decrypt` fails (with the error the spec calls
`AuthenticationError`) whenever the integrity tag does not verify or
decoding fails, rejects every input whose decoded blob is shorter than
the fixed header length `salt_size + nonce_size + tag_size = 44`, and
never returns data unless the full MAC verification (and text decoding)
succeeded. -/
theorem aes256_decrypt_fail_closed (P : CryptoPrims) (pass : String)
    (input : Bytes) (hacc : GcmAcceptsOnly16 P) :
    (P.b64decode input = none →
      AES256.decrypt P (AES256.init pass) input =
        Except.error DecryptError.decodeFailed)
  ∧ (∀ data, P.b64decode input = some data → data.length < 16 + 12 + 16 →
      ∃ e, AES256.decrypt P (AES256.init pass) input = Except.error e)
  ∧ (∀ data, P.b64decode input = some data →
      ((data.drop 16).take 12).length ≠ 0 →
      P.gcmDecryptVerify (AES256.derive_key P (AES256.init pass) (data.take 16))
        ((data.drop 16).take 12) (data.drop (16 + 12 + 16))
        ((data.drop (16 + 12)).take 16) = none →
      AES256.decrypt P (AES256.init pass) input =
        Except.error DecryptError.macCheckFailed)
  ∧ (∀ s, AES256.decrypt P (AES256.init pass) input = Except.ok s →
      ∃ data pt, P.b64decode input = some data ∧ 16 + 12 + 16 ≤ data.length ∧
        P.gcmDecryptVerify
          (AES256.derive_key P (AES256.init pass) (data.take 16))
          ((data.drop 16).take 12) (data.drop (16 + 12 + 16))
          ((data.drop (16 + 12)).take 16) = some pt ∧
        bytesStr? pt = some s) := by
  have hsz : (AES256.init pass).salt_size = 16 := rfl
  have hnz : (AES256.init pass).nonce_size = 12 := rfl
  have htz : (AES256.init pass).tag_size = 16 := rfl
  refine ⟨?_, ?_, ?_, ?_⟩
  · intro hdec
    simp only [AES256.decrypt, hsz, hnz, htz, hdec]
  · intro data hdec hshort
    simp only [AES256.decrypt, hsz, hnz, htz, hdec]
    by_cases hempty : ((data.drop 16).take 12).length = 0
    · exact ⟨DecryptError.emptyNonce, by simp [hempty]⟩
    · have hv : P.gcmDecryptVerify
          (AES256.derive_key P (AES256.init pass) (data.take 16))
          ((data.drop 16).take 12) (data.drop (16 + 12 + 16))
          ((data.drop (16 + 12)).take 16) = none := by
        cases hv : P.gcmDecryptVerify
            (AES256.derive_key P (AES256.init pass) (data.take 16))
            ((data.drop 16).take 12) (data.drop (16 + 12 + 16))
            ((data.drop (16 + 12)).take 16) with
        | none => rfl
        | some pt =>
          have hlen := hacc _ _ _ _ _ hv
          rw [List.length_take, List.length_drop] at hlen
          omega
      refine ⟨DecryptError.macCheckFailed, ?_⟩
      dsimp only
      rw [if_neg hempty, hv]
  · intro data hdec hempty hv
    simp only [AES256.decrypt, hsz, hnz, htz, hdec]
    rw [if_neg hempty, hv]
  · intro s hok
    simp only [AES256.decrypt, hsz, hnz, htz] at hok
    cases hdec : P.b64decode input with
    | none => rw [hdec] at hok; exact absurd hok (by simp)
    | some data =>
      rw [hdec] at hok
      dsimp only at hok
      by_cases hempty : ((data.drop 16).take 12).length = 0
      · rw [if_pos hempty] at hok; exact absurd hok (by simp)
      · rw [if_neg hempty] at hok
        cases hv : P.gcmDecryptVerify
            (AES256.derive_key P (AES256.init pass) (data.take 16))
            ((data.drop 16).take 12) (data.drop (16 + 12 + 16))
            ((data.drop (16 + 12)).take 16) with
        | none => rw [hv] at hok; exact absurd hok (by simp)
        | some pt =>
          rw [hv] at hok
          dsimp only at hok
          cases hstr : bytesStr? pt with
          | none => rw [hstr] at hok; exact absurd hok (by simp)
          | some s2 =>
            rw [hstr] at hok
            have hs2 : s2 = s := by
              cases hok; rfl
            have hlen := hacc _ _ _ _ _ hv
            rw [List.length_take, List.length_drop] at hlen
            exact ⟨data, pt, rfl, by omega, hv, by rw [hstr, hs2]⟩

/-! ## Argon2id.py

`class Argon2id` wraps argon2-cffi's `PasswordHasher`; `class
Argon2Metadata` is the parameter container with string
(de)serialization.  The argon2-cffi library primitives are abstract,
parameterized by the type `H` of encoded hash strings, which the
repository treats as opaque values. -/

/-- `argon2.low_level.Type`: the three algorithm variants. -/
inductive ArgonType
  | D
  | I
  | ID
deriving DecidableEq, Repr

/-- `Type.name` as used by `Argon2Metadata.to_str`. -/
def ArgonType.name : ArgonType → String
  | .D => "D"
  | .I => "I"
  | .ID => "ID"

/-- `getattr(argon2.low_level.Type, tname)`: `none` models the
`AttributeError` on an unknown variant identifier. -/
def argonTypeOfName? (s : String) : Option ArgonType :=
  if s = "D" then some .D
  else if s = "I" then some .I
  else if s = "ID" then some .ID
  else none

/-- `class Argon2Metadata` (src/Argon2id.py lines 137–147): the hasher
configuration, defaults `(1, 65536, 4, 32, 16, 'utf-8', Type.ID)`. -/
structure Argon2Metadata where
  time_cost : Nat
  memory_cost : Nat
  parallelism : Nat
  hash_len : Nat
  salt_len : Nat
  encoding : String
  type_ : ArgonType
deriving DecidableEq, Repr

/-- The default-constructed `Argon2Metadata()`. -/
def Argon2Metadata.default : Argon2Metadata :=
  ⟨1, 65536, 4, 32, 16, "utf-8", ArgonType.ID⟩

/-- `argon2.Parameters`: the self-described parameters embedded in an
encoded hash and compared by `PasswordHasher.check_needs_rehash`
(variant, version, salt length, hash length, time/memory cost,
parallelism — the text encoding is not part of the hash). -/
structure ArgonParameters where
  type_ : ArgonType
  version : Nat
  salt_len : Nat
  hash_len : Nat
  time_cost : Nat
  memory_cost : Nat
  parallelism : Nat
deriving DecidableEq, Repr

/-- The `argon2.Parameters` a `PasswordHasher` built from this metadata
targets (argon2 version 19 = 0x13, the current one). -/
def Argon2Metadata.parameters (m : Argon2Metadata) : ArgonParameters :=
  ⟨m.type_, 19, m.salt_len, m.hash_len, m.time_cost, m.memory_cost,
   m.parallelism⟩

/-- `Argon2Metadata.to_str` (lines 149–164):
`"Argon2,<tc>,<mc>,<par>,<hl>,<sl>,<encoding>,<type name>"`. -/
def Argon2Metadata.to_str (m : Argon2Metadata) : String :=
  String.intercalate ","
    ["Argon2", toString m.time_cost, toString m.memory_cost,
     toString m.parallelism, toString m.hash_len, toString m.salt_len,
     m.encoding, m.type_.name]

/-- The exceptions `update_metadata_from_str` can raise: `ValueError` on a
wrong field count (the spec's `MalformedMetadataError`), `ValueError`
from `int()` on a non-numeric field, and `AttributeError` from `getattr`
on an unknown variant (the spec's `ConfigurationError`). -/
inductive MetadataError
  | malformed
  | intParse
  | unknownVariant
deriving DecidableEq, Repr

/-- Model of Python `int()` on a decimal-digit string: `some` the value
when the string is a nonempty run of digits, `none` (`ValueError`)
otherwise.  (Python also strips whitespace and accepts signs and
underscores; for metadata fields only plain digit runs occur.) -/
def strToNat? (s : String) : Option Nat :=
  if s.data ≠ [] ∧ s.data.all Char.isDigit then
    some (s.data.foldl (fun n c => n * 10 + (c.toNat - 48)) 0)
  else none

/-- `Argon2Metadata.update_metadata_from_str` (lines 166–181): split on
`','`, require exactly 8 fields, parse the five numeric fields with
`int()`, keep the encoding, and resolve the variant name via `getattr`.
In Python the method mutates `self`; here it returns the updated
metadata. -/
def Argon2Metadata.update_metadata_from_str (metadata_str : String) :
    Except MetadataError Argon2Metadata :=
  match splitSepStr ',' metadata_str with
  | [_, tc, mc, par, hl, sl, enc, tname] =>
    match strToNat? tc, strToNat? mc, strToNat? par, strToNat? hl,
        strToNat? sl with
    | some tcv, some mcv, some parv, some hlv, some slv =>
      match argonTypeOfName? tname with
      | some t => Except.ok ⟨tcv, mcv, parv, hlv, slv, enc, t⟩
      | none => Except.error MetadataError.unknownVariant
    | _, _, _, _, _ => Except.error MetadataError.intParse
  | _ => Except.error MetadataError.malformed

/-- The argon2-cffi primitives, abstract in the type `H` of encoded hash
strings (the repository never inspects them). -/
structure ArgonPrims (H : Type) where
  /-- `PasswordHasher.hash(input)`: the hasher's target parameters, its
  internal random salt (explicit here), and the input bytes. -/
  argonHash : ArgonParameters → Nat → Bytes → H
  /-- `PasswordHasher.verify(hash, input)` collapsed to the boolean the
  repository extracts from it (`True`, or an exception caught by the
  repository's bare `except` and turned into `False`). -/
  argonVerify : H → Bytes → Bool
  /-- `argon2.extract_parameters(hash)` as used by `check_needs_rehash`:
  `none` models the `InvalidHash` exception on an unparsable hash. -/
  extractParameters : H → Option ArgonParameters

/-- Library contract: verifying a hash against the input it was produced
from succeeds. -/
def ArgonVerifyCorrect {H : Type} (P : ArgonPrims H) : Prop :=
  ∀ params rnd input, P.argonVerify (P.argonHash params rnd input) input = true

/-- Library contract: an encoded hash self-describes the parameters it
was produced under. -/
def ArgonSelfDescribing {H : Type} (P : ArgonPrims H) : Prop :=
  ∀ params rnd input,
    P.extractParameters (P.argonHash params rnd input) = some params

/-- `class Argon2id` (lines 27–34): the hasher configuration plus the
pepper (already UTF-8 encoded). -/
structure Argon2id where
  metadata : Argon2Metadata
  pepper : Bytes

/-- `Argon2id.hash` (lines 36–66): combine
`variable_salt ++ data ++ pepper` and hash with the configured hasher;
`rnd` is argon2's internal random salt. -/
def Argon2id.hash {H : Type} (P : ArgonPrims H) (a : Argon2id) (rnd : Nat)
    (data variable_salt : Bytes) : H :=
  P.argonHash a.metadata.parameters rnd (variable_salt ++ data ++ a.pepper)

/-- `Argon2id.verify` (lines 68–98): combine the same way and verify;
any exception is caught and reported as `False` (already folded into
`argonVerify`). -/
def Argon2id.verify {H : Type} (P : ArgonPrims H) (a : Argon2id)
    (data_hashed : H) (data variable_salt : Bytes) : Bool :=
  P.argonVerify data_hashed (variable_salt ++ data ++ a.pepper)

/-- argon2-cffi's `PasswordHasher.check_needs_rehash`: compare the
hash's self-described parameters with the hasher's target parameters;
`none` models the `InvalidHash` exception on an unparsable hash. -/
def checkNeedsRehashLib {H : Type} (P : ArgonPrims H)
    (params : ArgonParameters) (data_hashed : H) : Option Bool :=
  (P.extractParameters data_hashed).map (fun q => decide (params ≠ q))

/-- `Argon2id.needs_rehash` (lines 100–114): defer to the library and
treat `InvalidHash` as "needs rehash". -/
def Argon2id.needs_rehash {H : Type} (P : ArgonPrims H) (a : Argon2id)
    (data_hashed : H) : Bool :=
  (checkNeedsRehashLib P a.metadata.parameters data_hashed).getD true

/-- `Argon2id.get_metadata` (lines 116–126). -/
def Argon2id.get_metadata (a : Argon2id) : String :=
  a.metadata.to_str

/-- **C5.** `needs_rehash` reports `true` for a hash produced under
parameter set `A` when checked by a hasher configured with a different
parameter set `B` (the compared set: variant, version, salt length,
hash length, time cost, memory cost, parallelism), `false` when checked
under `A` itself, and `true` when the hash is unparsable. -/
theorem needs_rehash_param_change {H : Type} (P : ArgonPrims H)
    (hself : ArgonSelfDescribing P) (A B : Argon2id) (rnd : Nat)
    (data salt : Bytes) (bad : H) (hbad : P.extractParameters bad = none) :
    (A.metadata.parameters ≠ B.metadata.parameters →
      Argon2id.needs_rehash P B (Argon2id.hash P A rnd data salt) = true)
  ∧ Argon2id.needs_rehash P A (Argon2id.hash P A rnd data salt) = false
  ∧ Argon2id.needs_rehash P A bad = true := by
  refine ⟨?_, ?_, ?_⟩
  · intro hne
    simp only [Argon2id.needs_rehash, checkNeedsRehashLib, Argon2id.hash,
      hself _ _ _, Option.map_some, Option.getD_some]
    exact decide_eq_true (fun h => hne h.symm)
  · simp only [Argon2id.needs_rehash, checkNeedsRehashLib, Argon2id.hash,
      hself _ _ _, Option.map_some, Option.getD_some]
    simp
  · simp only [Argon2id.needs_rehash, checkNeedsRehashLib, hbad]
    rfl

/-- **C9.** (implicit) The hasher combines its inputs by plain
concatenation `salt ++ data ++ pepper` with no length separation, so a
hash produced from `(data1, salt1)` verifies against any `(data2, salt2)`
whose concatenation `salt2 ++ data2` equals `salt1 ++ data1` — also when
the pairs are distinct. -/
theorem verify_accepts_concat_aliased_pair {H : Type} (P : ArgonPrims H)
    (hver : ArgonVerifyCorrect P) (a : Argon2id) (rnd : Nat)
    (data1 salt1 data2 salt2 : Bytes)
    (hconcat : salt1 ++ data1 = salt2 ++ data2) :
    Argon2id.verify P a (Argon2id.hash P a rnd data1 salt1) data2 salt2
      = true := by
  unfold Argon2id.verify Argon2id.hash
  rw [show salt2 ++ data2 ++ a.pepper = salt1 ++ data1 ++ a.pepper from by
    rw [hconcat]]
  exact hver _ _ _

/-- **C7.** Parsing the hash-parameter metadata group is strict: a wrong
field count raises the error the spec calls `MalformedMetadataError`; a
well-shaped, numeric string whose variant identifier is unknown raises
the error the spec calls `ConfigurationError`; a well-formed string with
a known variant parses without error. -/
theorem update_metadata_from_str_strict (s : String) :
    ((splitSepStr ',' s).length ≠ 8 →
      Argon2Metadata.update_metadata_from_str s =
        Except.error MetadataError.malformed)
  ∧ (∀ tag tc mc par hl sl enc tname,
      splitSepStr ',' s = [tag, tc, mc, par, hl, sl, enc, tname] →
      ∀ tcv mcv parv hlv slv,
        strToNat? tc = some tcv → strToNat? mc = some mcv →
        strToNat? par = some parv → strToNat? hl = some hlv →
        strToNat? sl = some slv →
        (argonTypeOfName? tname = none →
          Argon2Metadata.update_metadata_from_str s =
            Except.error MetadataError.unknownVariant)
        ∧ (∀ t, argonTypeOfName? tname = some t →
            Argon2Metadata.update_metadata_from_str s =
              Except.ok ⟨tcv, mcv, parv, hlv, slv, enc, t⟩)) := by
  constructor
  · intro hlen
    unfold Argon2Metadata.update_metadata_from_str
    generalize hp : splitSepStr ',' s = parts at hlen
    rcases parts with _ | ⟨a, parts⟩
    · rfl
    rcases parts with _ | ⟨b, parts⟩
    · rfl
    rcases parts with _ | ⟨c, parts⟩
    · rfl
    rcases parts with _ | ⟨d, parts⟩
    · rfl
    rcases parts with _ | ⟨e, parts⟩
    · rfl
    rcases parts with _ | ⟨f, parts⟩
    · rfl
    rcases parts with _ | ⟨g, parts⟩
    · rfl
    rcases parts with _ | ⟨h8, parts⟩
    · rfl
    rcases parts with _ | ⟨i, parts⟩
    · simp at hlen
    · rfl
  · intro tag tc mc par hl sl enc tname hsplit tcv mcv parv hlv slv htc hmc
      hpar hhl hsl
    constructor
    · intro hunk
      unfold Argon2Metadata.update_metadata_from_str
      rw [hsplit]
      dsimp only
      rw [htc, hmc, hpar, hhl, hsl]
      dsimp only
      rw [hunk]
    · intro t hty
      unfold Argon2Metadata.update_metadata_from_str
      rw [hsplit]
      dsimp only
      rw [htc, hmc, hpar, hhl, hsl]
      dsimp only
      rw [hty]

/-! ## HMAC.py, User.py, SQLite_Database.py, Server.py

`HMAC.hash` is `hmac.new(key, data, sha256).hexdigest()` — a
deterministic keyed function, modelled (with the server's key baked in)
as the abstract function `hmacHash`.  `HMAC.get_metadata` returns the
constant `"HMAC,SHA256"`.

`User` (src/User.py) carries the five record fields and increments the
process-wide class variable `User.USER_NUMBER` on *every* construction —
both in `Server.register` and when `SQLite_Database.get_user` re-builds a
`User` from a fetched row.  The counter is part of `ServerState`.

The SQLite store is modelled as the list of rows in insertion order;
`email_hashed` is the primary key. -/

/-- One row of the `users` table / one `User` object (src/User.py lines
21–28), abstract in the hash type `H`. -/
structure User (H : Type) where
  email_hashed : String
  email_encrypted : Bytes
  user_id_encrypted : Bytes
  password_hashed : H
  metadata : String
deriving DecidableEq

/-- `Database.is_user_in_database` (src/SQLite_Database.py lines
127–131). -/
def Database.is_user_in_database {H : Type} (db : List (User H))
    (email_hashed : String) : Bool :=
  db.any (fun u => u.email_hashed == email_hashed)

/-- `Database.get_user` at the row level (lines 96–109): the first row
with the given primary key.  (The `User` re-construction's counter
increment is accounted for in `Server.get_user`.) -/
def Database.get_user {H : Type} (db : List (User H))
    (email_hashed : String) : Option (User H) :=
  db.find? (fun u => u.email_hashed == email_hashed)

/-- `Database.add_user` (lines 51–68): `INSERT` succeeds unless the
primary key exists (`sqlite3.IntegrityError` → `False`). -/
def Database.add_user {H : Type} (db : List (User H)) (user : User H) :
    Bool × List (User H) :=
  if Database.is_user_in_database db user.email_hashed then (false, db)
  else (true, db ++ [user])

/-- `Database.update_user` (lines 70–87): `UPDATE ... WHERE email_hashed
= ?` rewrites every matching row's other four fields. -/
def Database.update_user {H : Type} (db : List (User H)) (user : User H) :
    List (User H) :=
  db.map (fun v =>
    if v.email_hashed == user.email_hashed then
      ⟨v.email_hashed, user.email_encrypted, user.user_id_encrypted,
       user.password_hashed, user.metadata⟩
    else v)

/-- `Database.delete_user` (lines 89–94): delete matching rows, report
whether any row was removed. -/
def Database.delete_user {H : Type} (db : List (User H))
    (email_hashed : String) : Bool × List (User H) :=
  (Database.is_user_in_database db email_hashed,
   db.filter (fun u => !(u.email_hashed == email_hashed)))

/-- All abstract library primitives the orchestrator composes:
the AES-side primitives, the argon2 primitives, and the HMAC blind index
`hmac.new(Keys.HMAC_KEY, data, sha256).hexdigest()` with the server's
key baked in (a fixed deterministic function). -/
structure Prims (H : Type) where
  crypto : CryptoPrims
  argon : ArgonPrims H
  hmacHash : String → String

/-- The configuration a `Server` holds after `__init__` (src/Server.py
lines 37–42): the AES-256 cipher over `Keys.AES_KEY`, the Argon2id hasher
over `Keys.ARGON_PEPPER` (default metadata), and — for
`Server.__get_package_versions` — the runtime-dependent body of the
package-version listing. -/
structure ServerCfg where
  aes : AES256
  argonMeta : Argon2Metadata
  pepper : Bytes
  pkgBody : String

/-- The server's Argon2id hasher instance. -/
def ServerCfg.argon (cfg : ServerCfg) : Argon2id :=
  ⟨cfg.argonMeta, cfg.pepper⟩

/-- Mutable process state: the SQLite table plus the process-wide
`User.USER_NUMBER` class counter. -/
structure ServerState (H : Type) where
  db : List (User H)
  counter : Nat
deriving DecidableEq

/-- The fresh randomness one orchestrator operation may draw: salts and
nonces for up to two `encrypt` calls and argon2's internal salt. -/
structure Entropy where
  salt1 : Bytes
  nonce1 : Bytes
  salt2 : Bytes
  nonce2 : Bytes
  argonRnd : Nat

/-- `Server.__get_package_versions` (lines 145–173): a runtime-dependent
listing, wrapped as `"Python packages: (...)"`. -/
def get_package_versions (body : String) : String :=
  "Python packages: (" ++ body ++ ")"

/-- `Server.get_metadata` (lines 136–143): `';'.join` of the cipher,
hasher, HMAC and package-version groups — four groups. -/
def Server.get_metadata (cfg : ServerCfg) : String :=
  String.intercalate ";"
    [cfg.aes.get_metadata, (ServerCfg.argon cfg).get_metadata,
     "HMAC,SHA256", get_package_versions cfg.pkgBody]

/-- `Server.register` (lines 44–52): blind-index the email, refuse if
present, otherwise build the record — encrypted email, encrypted
`str(User.USER_NUMBER)` (the current process counter), password hashed
under the lookup key, current metadata — and insert it.  Constructing
the `User` bumps the class counter. -/
def Server.register {H : Type} (P : Prims H) (cfg : ServerCfg)
    (st : ServerState H) (ent : Entropy) (email password : String) :
    Bool × ServerState H :=
  let email_hashed := P.hmacHash email
  if Database.is_user_in_database st.db email_hashed then (false, st)
  else
    let user : User H :=
      ⟨email_hashed,
       AES256.encrypt P.crypto cfg.aes ent.salt1 ent.nonce1 email,
       AES256.encrypt P.crypto cfg.aes ent.salt2 ent.nonce2
         (toString st.counter),
       Argon2id.hash P.argon (ServerCfg.argon cfg) ent.argonRnd
         (strBytes password) (strBytes email_hashed),
       Server.get_metadata cfg⟩
    let r := Database.add_user st.db user
    (r.1, ⟨r.2, st.counter + 1⟩)

/-- `Server.get_user` on an email's hash (lines 83–94): check presence,
then fetch; re-constructing the fetched row as a `User` object bumps the
process counter. -/
def Server.get_user_hashed {H : Type} (st : ServerState H)
    (email_hashed : String) : Option (User H) × ServerState H :=
  if Database.is_user_in_database st.db email_hashed then
    match Database.get_user st.db email_hashed with
    | some u => (some u, ⟨st.db, st.counter + 1⟩)
    | none => (none, st)
  else (none, st)

/-- `Server.change_password` (lines 67–73): fetch the record, re-hash the
new password under the stored lookup key, and `UPDATE`.  The `metadata`
field written is the record's previous one — it is not refreshed. -/
def Server.change_password {H : Type} (P : Prims H) (cfg : ServerCfg)
    (st : ServerState H) (ent : Entropy) (email password : String) :
    Bool × ServerState H :=
  let email_hashed := P.hmacHash email
  match Server.get_user_hashed st email_hashed with
  | (some u, st1) =>
    let u1 : User H :=
      ⟨u.email_hashed, u.email_encrypted, u.user_id_encrypted,
       Argon2id.hash P.argon (ServerCfg.argon cfg) ent.argonRnd
         (strBytes password) (strBytes u.email_hashed),
       u.metadata⟩
    (true, ⟨Database.update_user st1.db u1, st1.counter⟩)
  | (none, st1) => (false, st1)

/-- `Server.change_email` (lines 75–81): fetch the old record, delete it,
then `register` the new email with the given password. -/
def Server.change_email {H : Type} (P : Prims H) (cfg : ServerCfg)
    (st : ServerState H) (ent : Entropy)
    (email new_email password : String) : Bool × ServerState H :=
  let email_hashed := P.hmacHash email
  match Server.get_user_hashed st email_hashed with
  | (some u, st1) =>
    let r := Database.delete_user st1.db u.email_hashed
    Server.register P cfg ⟨r.2, st1.counter⟩ ent new_email password
  | (none, st1) => (false, st1)

/-- `Server.delete_user` (lines 102–107). -/
def Server.delete_user {H : Type} (P : Prims H) (st : ServerState H)
    (email : String) : Bool × ServerState H :=
  let email_hashed := P.hmacHash email
  match Server.get_user_hashed st email_hashed with
  | (some u, st1) =>
    (true, ⟨(Database.delete_user st1.db u.email_hashed).2, st1.counter⟩)
  | (none, st1) => (false, st1)

/-! ## Concrete instantiations of the library primitives

Used to evaluate the theorems at concrete inputs.  They satisfy the
stated library contracts; the cipher stand-in keeps the plaintext as the
"ciphertext" so that results remain directly computable. -/

/-- A concrete encoded-hash type: `none` is an unparsable string, `some`
an encoded hash carrying its parameters, internal salt, and input. -/
abbrev HashStr := Option (ArgonParameters × Nat × Bytes)

/-- Concrete argon2 primitives over `HashStr`. -/
def argonModel : ArgonPrims HashStr :=
  ⟨fun p r x => some (p, r, x),
   fun h y =>
     match h with
     | some t => decide (t.2.2 = y)
     | none => false,
   fun h => h.map (fun t => t.1)⟩

theorem argonModel_verify_correct : ArgonVerifyCorrect argonModel := by
  intro params rnd input
  simp [argonModel]

theorem argonModel_self_describing : ArgonSelfDescribing argonModel := by
  intro params rnd input
  simp [argonModel]

/-- Concrete AES-side primitives: the key derivation appends the inputs,
the "GCM" stand-in keeps the plaintext and a constant 16-byte tag, and
base64 is the identity coding. -/
def cryptoModel : CryptoPrims :=
  ⟨fun pass salt iters => pass ++ salt ++ [iters],
   fun _key _nonce pt => (pt, List.replicate 16 0),
   fun _key _nonce ct tag =>
     if tag = List.replicate 16 0 then some ct else none,
   fun bs => bs,
   fun bs => some bs⟩

theorem cryptoModel_gcm_roundtrip : GcmRoundTrip cryptoModel := by
  intro key nonce pt
  simp [cryptoModel]

theorem cryptoModel_tag_len : GcmTagLen16 cryptoModel := by
  intro key nonce pt
  simp [cryptoModel]

theorem cryptoModel_accepts_only_16 : GcmAcceptsOnly16 cryptoModel := by
  intro key nonce ct tag pt h
  simp only [cryptoModel] at h
  by_cases htag : tag = List.replicate 16 0
  · subst htag; simp
  · rw [if_neg htag] at h; cases h

theorem cryptoModel_b64_roundtrip : B64RoundTrip cryptoModel := by
  intro bs
  rfl

/-- Concrete orchestrator primitives (the HMAC stand-in suffixes a
marker, keeping keys distinct and computable). -/
def toyPrims : Prims HashStr :=
  ⟨cryptoModel, argonModel, fun s => s ++ "#h"⟩

/-- A concrete server configuration: default cipher and hasher
parameters, empty package-version body. -/
def cfgModel : ServerCfg :=
  ⟨AES256.init "k", Argon2Metadata.default, strBytes "pep", ""⟩

/-- Concrete per-operation randomness of the right sizes. -/
def entModel : Entropy :=
  ⟨List.replicate 16 0, List.replicate 12 0,
   List.replicate 16 1, List.replicate 12 1, 7⟩

/-- The complete record `Server.register` builds at line 51: lookup key,
encrypted email, encrypted `str(User.USER_NUMBER)`, password hash under
the lookup key, and the current metadata snapshot. -/
def Server.registered_user {H : Type} (P : Prims H) (cfg : ServerCfg)
    (st : ServerState H) (ent : Entropy) (email password : String) :
    User H :=
  ⟨P.hmacHash email,
   AES256.encrypt P.crypto cfg.aes ent.salt1 ent.nonce1 email,
   AES256.encrypt P.crypto cfg.aes ent.salt2 ent.nonce2
     (toString st.counter),
   Argon2id.hash P.argon (ServerCfg.argon cfg) ent.argonRnd
     (strBytes password) (strBytes (P.hmacHash email)),
   Server.get_metadata cfg⟩

theorem register_absent_eq {H : Type} (P : Prims H) (cfg : ServerCfg)
    (st : ServerState H) (ent : Entropy) (email password : String)
    (habs : Database.is_user_in_database st.db (P.hmacHash email) = false) :
    Server.register P cfg st ent email password =
      (true, ⟨st.db ++ [Server.registered_user P cfg st ent email password],
              st.counter + 1⟩) := by
  simp only [Server.register, habs, Bool.false_eq_true, if_false,
    Database.add_user, Server.registered_user]

theorem register_present_eq {H : Type} (P : Prims H) (cfg : ServerCfg)
    (st : ServerState H) (ent : Entropy) (email password : String)
    (hpres : Database.is_user_in_database st.db (P.hmacHash email) = true) :
    Server.register P cfg st ent email password = (false, st) := by
  simp only [Server.register, hpres, if_true]

/-- **C3.** `register` returns `true` and inserts the complete
five-field record when the identifier's lookup key is not present, and
returns `false` leaving the whole store (and counter) unchanged when the
identifier is already registered; there is no partial state in either
case. -/
theorem register_complete_or_unchanged {H : Type} (P : Prims H)
    (cfg : ServerCfg) (st : ServerState H) (ent : Entropy)
    (email password : String) :
    (Database.is_user_in_database st.db (P.hmacHash email) = false →
      Server.register P cfg st ent email password =
        (true,
         ⟨st.db ++ [Server.registered_user P cfg st ent email password],
          st.counter + 1⟩))
  ∧ (Database.is_user_in_database st.db (P.hmacHash email) = true →
      Server.register P cfg st ent email password = (false, st)) :=
  ⟨register_absent_eq P cfg st ent email password,
   register_present_eq P cfg st ent email password⟩

/-- Witness for C3 at concrete inputs: registering a fresh identifier
succeeds and appends the record; a second registration of the same
identifier fails and leaves the state unchanged. -/
theorem register_complete_or_unchanged_witness :
    (Database.is_user_in_database ([] : List (User HashStr)) "a#h" = false
      ∧ Server.register toyPrims cfgModel ⟨[], 0⟩ entModel "a" "pw" =
          (true, ⟨[Server.registered_user toyPrims cfgModel ⟨[], 0⟩ entModel
                     "a" "pw"], 1⟩))
  ∧ (Database.is_user_in_database
        [Server.registered_user toyPrims cfgModel ⟨[], 0⟩ entModel "a" "pw"]
        "a#h" = true
      ∧ Server.register toyPrims cfgModel
          ⟨[Server.registered_user toyPrims cfgModel ⟨[], 0⟩ entModel "a"
              "pw"], 1⟩ entModel "a" "pw" =
          (false, ⟨[Server.registered_user toyPrims cfgModel ⟨[], 0⟩ entModel
                      "a" "pw"], 1⟩)) :=
  ⟨⟨by decide,
    (register_complete_or_unchanged toyPrims cfgModel ⟨[], 0⟩ entModel "a"
        "pw").1 (by decide)⟩,
   ⟨by decide,
    (register_complete_or_unchanged toyPrims cfgModel
        ⟨[Server.registered_user toyPrims cfgModel ⟨[], 0⟩ entModel "a"
            "pw"], 1⟩ entModel "a" "pw").2 (by decide)⟩⟩

/-- A stored record whose metadata snapshot differs from the current
configuration's (as after a parameter upgrade). -/
def staleUser : User HashStr :=
  ⟨"u#h", [], [], some (Argon2Metadata.default.parameters, 0, []), "OLD"⟩

/-- Counterexample to **C4** as stated: `change_password` succeeds but
re-writes the record's *previous* metadata string, which here differs
from the serialization of the current parameters — it does not write new
metadata reflecting the current hasher parameters. -/
theorem change_password_metadata_not_refreshed_cex :
    (Server.change_password toyPrims cfgModel ⟨[staleUser], 3⟩ entModel
        "u" "npw").1 = true
  ∧ ((Server.change_password toyPrims cfgModel ⟨[staleUser], 3⟩ entModel
        "u" "npw").2.db.map (fun u => u.metadata)) = ["OLD"]
  ∧ "OLD" ≠ Server.get_metadata cfgModel := by
  refine ⟨by decide, by decide, ?_⟩
  decide

/-- **C4 (amended).** For a registered identifier, `change_password`
re-hashes the new password under the existing lookup key and updates the
stored hash, but re-writes the record's previous `metadata` unchanged
(it is not refreshed to the current hasher parameters); for an absent
identifier it returns `false` without modifying any state. -/
theorem change_password_keeps_stored_metadata {H : Type} (P : Prims H)
    (cfg : ServerCfg) (st : ServerState H) (ent : Entropy)
    (email password : String) :
    (∀ u, Database.get_user st.db (P.hmacHash email) = some u →
      Server.change_password P cfg st ent email password =
        (true,
         ⟨Database.update_user st.db
            ⟨u.email_hashed, u.email_encrypted, u.user_id_encrypted,
             Argon2id.hash P.argon (ServerCfg.argon cfg) ent.argonRnd
               (strBytes password) (strBytes u.email_hashed),
             u.metadata⟩,
          st.counter + 1⟩))
  ∧ (Database.is_user_in_database st.db (P.hmacHash email) = false →
      Server.change_password P cfg st ent email password = (false, st)) := by
  constructor
  · intro u hget
    have hpres : Database.is_user_in_database st.db (P.hmacHash email)
        = true := by
      have hmem := List.mem_of_find?_eq_some hget
      have hp := List.find?_some hget
      simp only [Database.is_user_in_database, List.any_eq_true]
      exact ⟨u, hmem, hp⟩
    simp only [Server.change_password, Server.get_user_hashed, hpres,
      if_true, hget]
  · intro habs
    simp only [Server.change_password, Server.get_user_hashed, habs,
      Bool.false_eq_true, if_false]

/-- Witness for the amended C4 at concrete inputs: the update keeps the
old metadata string, and an absent identifier leaves the state alone. -/
theorem change_password_keeps_stored_metadata_witness :
    (Database.get_user [staleUser] "u#h" = some staleUser
      ∧ Server.change_password toyPrims cfgModel ⟨[staleUser], 3⟩ entModel
          "u" "npw" =
        (true,
         ⟨Database.update_user [staleUser]
            ⟨staleUser.email_hashed, staleUser.email_encrypted,
             staleUser.user_id_encrypted,
             Argon2id.hash toyPrims.argon (ServerCfg.argon cfgModel)
               entModel.argonRnd (strBytes "npw")
               (strBytes staleUser.email_hashed),
             staleUser.metadata⟩,
          4⟩))
  ∧ (Database.is_user_in_database [staleUser] "z#h" = false
      ∧ Server.change_password toyPrims cfgModel ⟨[staleUser], 3⟩ entModel
          "z" "npw" = (false, ⟨[staleUser], 3⟩)) :=
  ⟨⟨by decide,
    (change_password_keeps_stored_metadata toyPrims cfgModel ⟨[staleUser], 3⟩
        entModel "u" "npw").1 staleUser (by decide)⟩,
   ⟨by decide,
    (change_password_keeps_stored_metadata toyPrims cfgModel ⟨[staleUser], 3⟩
        entModel "z" "npw").2 (by decide)⟩⟩

/-- Counterexample to **C6** as stated: with the default configuration
the orchestrator's metadata string splits into four semicolon-separated
groups, not three — the extra group is the runtime package-version
listing. -/
theorem server_metadata_not_three_groups_cex :
    (splitSepStr ';' (Server.get_metadata cfgModel)).length = 4
  ∧ (splitSepStr ';' (Server.get_metadata cfgModel)).length ≠ 3
  ∧ (splitSepStr ';' (Server.get_metadata cfgModel)).getLast? =
      some (get_package_versions cfgModel.pkgBody) := by
  refine ⟨by decide, by decide, by decide⟩

/-- **C6 (amended).** A record's metadata consists of *four*
semicolon-joined groups: the cipher group
(`"AES256,GCM,PBKDF2,<iterations>,<saltSize>,<nonceSize>,<tagSize>"`),
the hash group
(`"Argon2,<timeCost>,<memCost>,<parallelism>,<hashLen>,<saltLen>,<encoding>,<variant>"`),
the blind-index group (`"HMAC,SHA256"`), and additionally the runtime
package-version group (`"Python packages: (...)"`). -/
theorem server_metadata_four_groups (cfg : ServerCfg) :
    Server.get_metadata cfg =
      cfg.aes.get_metadata ++ ";" ++ (ServerCfg.argon cfg).get_metadata
        ++ ";" ++ "HMAC,SHA256" ++ ";" ++ get_package_versions cfg.pkgBody
  ∧ cfg.aes.get_metadata =
      "AES256,GCM,PBKDF2," ++ toString cfg.aes.kdf_iterations ++ ","
        ++ toString cfg.aes.salt_size ++ "," ++ toString cfg.aes.nonce_size
        ++ "," ++ toString cfg.aes.tag_size
  ∧ (ServerCfg.argon cfg).get_metadata =
      "Argon2," ++ toString cfg.argonMeta.time_cost ++ ","
        ++ toString cfg.argonMeta.memory_cost ++ ","
        ++ toString cfg.argonMeta.parallelism ++ ","
        ++ toString cfg.argonMeta.hash_len ++ ","
        ++ toString cfg.argonMeta.salt_len ++ ","
        ++ cfg.argonMeta.encoding ++ "," ++ cfg.argonMeta.type_.name := by
  refine ⟨?_, ?_, ?_⟩
  · simp [Server.get_metadata, String.intercalate, String.intercalate.go]
  · simp only [AES256.get_metadata, String.intercalate,
      String.intercalate.go]
    simp [String.append_assoc]
  · simp only [Argon2id.get_metadata, ServerCfg.argon,
      Argon2Metadata.to_str, String.intercalate, String.intercalate.go]
    simp [String.append_assoc]

/-- Counterexample to **C8** as stated: two `register` executions over
*identical* (empty) store contents but different values of the
process-wide `User.USER_NUMBER` counter embed different sequence
numbers (`"0"` vs `"5"`) — the stored value is not a function of the
store's state alone. -/
theorem register_seq_number_depends_on_counter_cex :
    ((Server.register toyPrims cfgModel ⟨[], 0⟩ entModel "a" "pw").2.db.map
        (fun u => u.user_id_encrypted))
      ≠ ((Server.register toyPrims cfgModel ⟨[], 5⟩ entModel "a"
            "pw").2.db.map (fun u => u.user_id_encrypted))
  ∧ ((Server.register toyPrims cfgModel ⟨[], 0⟩ entModel "a" "pw").2.db.map
        (fun u => AES256.decrypt cryptoModel cfgModel.aes
          u.user_id_encrypted)) = [Except.ok "0"]
  ∧ ((Server.register toyPrims cfgModel ⟨[], 5⟩ entModel "a" "pw").2.db.map
        (fun u => AES256.decrypt cryptoModel cfgModel.aes
          u.user_id_encrypted)) = [Except.ok "5"] := by
  refine ⟨by decide, by rfl, by rfl⟩

/-- **C8 (amended).** The sequence number embedded (encrypted) in a new
record at registration is the current value of the process-wide
`User.USER_NUMBER` class counter — which every `User` construction in
the process increments — not a value sourced from the external store:
registering over the same store contents with different counter values
stores the encryption of `str(counter)`. -/
theorem register_embeds_process_counter {H : Type} (P : Prims H)
    (cfg : ServerCfg) (st : ServerState H) (ent : Entropy)
    (email password : String)
    (habs : Database.is_user_in_database st.db (P.hmacHash email) = false) :
    ((Server.register P cfg st ent email password).2.db.map
        (fun u => u.user_id_encrypted)) =
      st.db.map (fun u => u.user_id_encrypted) ++
        [AES256.encrypt P.crypto cfg.aes ent.salt2 ent.nonce2
          (toString st.counter)]
  ∧ (Server.register P cfg st ent email password).2.counter =
      st.counter + 1 := by
  rw [register_absent_eq P cfg st ent email password habs]
  simp [Server.registered_user]

/-- Witness for the amended C8 at concrete inputs. -/
theorem register_embeds_process_counter_witness :
    (Database.is_user_in_database ([] : List (User HashStr)) "a#h" = false)
  ∧ ((Server.register toyPrims cfgModel ⟨[], 5⟩ entModel "a"
        "pw").2.db.map (fun u => u.user_id_encrypted)) =
      [AES256.encrypt cryptoModel cfgModel.aes entModel.salt2
        entModel.nonce2 "5"]
  ∧ (Server.register toyPrims cfgModel ⟨[], 5⟩ entModel "a"
        "pw").2.counter = 6 :=
  ⟨by decide,
   (register_embeds_process_counter toyPrims cfgModel ⟨[], 5⟩ entModel "a"
      "pw" (by decide)).1,
   (register_embeds_process_counter toyPrims cfgModel ⟨[], 5⟩ entModel "a"
      "pw" (by decide)).2⟩

/-- **C10.** (implicit) When both the old and the new identifier are
registered (under distinct lookup keys), `change_email` deletes the old
identity's record and then returns `false` because registration under
the new identifier fails: the failure path does not leave the state
unchanged — the old record is gone and the new identifier's record is
the only trace of either. -/
theorem change_email_deletes_old_on_duplicate_target {H : Type}
    (P : Prims H) (cfg : ServerCfg) (st : ServerState H) (ent : Entropy)
    (old_email new_email password : String)
    (hne : P.hmacHash old_email ≠ P.hmacHash new_email)
    (hold : Database.is_user_in_database st.db (P.hmacHash old_email) = true)
    (hnew : Database.is_user_in_database st.db (P.hmacHash new_email)
      = true) :
    (Server.change_email P cfg st ent old_email new_email password).1 = false
  ∧ (Server.change_email P cfg st ent old_email new_email password).2.db =
      st.db.filter (fun u => !(u.email_hashed == P.hmacHash old_email))
  ∧ Database.is_user_in_database
      (Server.change_email P cfg st ent old_email new_email password).2.db
      (P.hmacHash old_email) = false
  ∧ Database.is_user_in_database
      (Server.change_email P cfg st ent old_email new_email password).2.db
      (P.hmacHash new_email) = true := by
  obtain ⟨v, hvfind⟩ :
      ∃ v, Database.get_user st.db (P.hmacHash old_email) = some v := by
    have h1 : (st.db.find?
        (fun u => u.email_hashed == P.hmacHash old_email)).isSome := by
      rw [List.find?_isSome]
      obtain ⟨x, hx, hpx⟩ := List.any_eq_true.mp hold
      exact ⟨x, hx, hpx⟩
    exact Option.isSome_iff_exists.mp h1
  have hveq : v.email_hashed = P.hmacHash old_email := by
    have hv := List.find?_some hvfind
    simpa using hv
  have hchg : Server.change_email P cfg st ent old_email new_email password
      = Server.register P cfg
          ⟨st.db.filter (fun u => !(u.email_hashed == P.hmacHash old_email)),
           st.counter + 1⟩ ent new_email password := by
    simp only [Server.change_email, Server.get_user_hashed, hold, if_true,
      hvfind, Database.delete_user, hveq]
  have hnew2 : Database.is_user_in_database
      (st.db.filter (fun u => !(u.email_hashed == P.hmacHash old_email)))
      (P.hmacHash new_email) = true := by
    obtain ⟨w, hwmem, hw⟩ := List.any_eq_true.mp hnew
    apply List.any_eq_true.mpr
    have hwe : w.email_hashed = P.hmacHash new_email := by simpa using hw
    refine ⟨w, List.mem_filter.mpr ⟨hwmem, ?_⟩, hw⟩
    simp [hwe]
    exact fun h => hne h.symm
  have hfalse : Database.is_user_in_database
      (st.db.filter (fun u => !(u.email_hashed == P.hmacHash old_email)))
      (P.hmacHash old_email) = false := by
    simp only [Database.is_user_in_database]
    cases hany : (st.db.filter
        (fun u => !(u.email_hashed == P.hmacHash old_email))).any
        (fun u => u.email_hashed == P.hmacHash old_email) with
    | false => rfl
    | true =>
      obtain ⟨x, hx, hpx⟩ := List.any_eq_true.mp hany
      have hxf := (List.mem_filter.mp hx).2
      rw [hpx] at hxf
      cases hxf
  rw [hchg, register_present_eq P cfg _ ent new_email password hnew2]
  exact ⟨rfl, rfl, hfalse, hnew2⟩

/-- Witness for C10 at concrete inputs: with `"a"` and `"b"` both
registered, `change_email "a" "b"` returns `false` and removes the old
record. -/
theorem change_email_deletes_old_on_duplicate_target_witness :
    ("a#h" : String) ≠ "b#h"
  ∧ Database.is_user_in_database
      [staleUser, ⟨"a#h", [], [], none, ""⟩, ⟨"b#h", [], [], none, ""⟩]
      "a#h" = true
  ∧ Database.is_user_in_database
      ([staleUser, ⟨"a#h", [], [], none, ""⟩, ⟨"b#h", [], [], none, ""⟩] :
        List (User HashStr)) "b#h" = true
  ∧ (Server.change_email toyPrims cfgModel
      ⟨[staleUser, ⟨"a#h", [], [], none, ""⟩, ⟨"b#h", [], [], none, ""⟩], 9⟩
      entModel "a" "b" "pw").1 = false
  ∧ Database.is_user_in_database
      (Server.change_email toyPrims cfgModel
        ⟨[staleUser, ⟨"a#h", [], [], none, ""⟩, ⟨"b#h", [], [], none, ""⟩],
         9⟩ entModel "a" "b" "pw").2.db "a#h" = false
  ∧ Database.is_user_in_database
      (Server.change_email toyPrims cfgModel
        ⟨[staleUser, ⟨"a#h", [], [], none, ""⟩, ⟨"b#h", [], [], none, ""⟩],
         9⟩ entModel "a" "b" "pw").2.db "b#h" = true := by
  have h := change_email_deletes_old_on_duplicate_target toyPrims cfgModel
    ⟨[staleUser, ⟨"a#h", [], [], none, ""⟩, ⟨"b#h", [], [], none, ""⟩], 9⟩
    entModel "a" "b" "pw" (by decide) (by decide) (by decide)
  exact ⟨by decide, by decide, by decide, h.1, h.2.2.1, h.2.2.2⟩

/-- Witness for C1 at concrete inputs: a concrete lawful primitive
instance, a 16-byte salt and a 12-byte nonce round-trip `"hello"`. -/
theorem aes256_decrypt_encrypt_roundtrip_witness :
    (List.replicate 16 0 : Bytes).length = 16
  ∧ (List.replicate 12 0 : Bytes).length = 12
  ∧ AES256.decrypt cryptoModel (AES256.init "k")
      (AES256.encrypt cryptoModel (AES256.init "k") (List.replicate 16 0)
        (List.replicate 12 0) "hello") = Except.ok "hello" :=
  ⟨by decide, by decide,
   aes256_decrypt_encrypt_roundtrip cryptoModel "k" (List.replicate 16 0)
     (List.replicate 12 0) "hello" cryptoModel_gcm_roundtrip
     cryptoModel_b64_roundtrip cryptoModel_tag_len (by decide) (by decide)⟩

/-- Witness for C2 at a concrete input: a 3-byte blob (shorter than the
44-byte header) is rejected. -/
theorem aes256_decrypt_fail_closed_witness :
    cryptoModel.b64decode [1, 2, 3] = some [1, 2, 3]
  ∧ ([1, 2, 3] : Bytes).length < 16 + 12 + 16
  ∧ ∃ e, AES256.decrypt cryptoModel (AES256.init "k") [1, 2, 3] =
      Except.error e :=
  ⟨rfl, by decide,
   (aes256_decrypt_fail_closed cryptoModel "k" [1, 2, 3]
     cryptoModel_accepts_only_16).2.1 [1, 2, 3] rfl (by decide)⟩

/-- Witness for C5 at concrete inputs: hashers differing only in time
cost disagree, the producing hasher reports `false`, and an unparsable
hash reports `true`. -/
theorem needs_rehash_param_change_witness :
    (⟨Argon2Metadata.default, strBytes "pep"⟩ :
        Argon2id).metadata.parameters ≠
      (⟨⟨2, 65536, 4, 32, 16, "utf-8", ArgonType.ID⟩, strBytes "pep"⟩ :
        Argon2id).metadata.parameters
  ∧ argonModel.extractParameters none = none
  ∧ Argon2id.needs_rehash argonModel
      ⟨⟨2, 65536, 4, 32, 16, "utf-8", ArgonType.ID⟩, strBytes "pep"⟩
      (Argon2id.hash argonModel ⟨Argon2Metadata.default, strBytes "pep"⟩ 7
        (strBytes "pw") (strBytes "salt")) = true
  ∧ Argon2id.needs_rehash argonModel ⟨Argon2Metadata.default, strBytes "pep"⟩
      (Argon2id.hash argonModel ⟨Argon2Metadata.default, strBytes "pep"⟩ 7
        (strBytes "pw") (strBytes "salt")) = false
  ∧ Argon2id.needs_rehash argonModel ⟨Argon2Metadata.default, strBytes "pep"⟩
      none = true := by
  have h := needs_rehash_param_change argonModel argonModel_self_describing
    ⟨Argon2Metadata.default, strBytes "pep"⟩
    ⟨⟨2, 65536, 4, 32, 16, "utf-8", ArgonType.ID⟩, strBytes "pep"⟩ 7
    (strBytes "pw") (strBytes "salt") none rfl
  exact ⟨by decide, rfl, h.1 (by decide), h.2.1, h.2.2⟩

/-- Witness for C9 at concrete inputs: the distinct pairs
`(data [99], salt [97, 98])` and `(data [98, 99], salt [97])` have equal
concatenations, and the first pair's hash verifies against the
second. -/
theorem verify_accepts_concat_aliased_pair_witness :
    ([97, 98] ++ [99] : Bytes) = [97] ++ [98, 99]
  ∧ (([99], [97, 98]) : Bytes × Bytes) ≠ ([98, 99], [97])
  ∧ Argon2id.verify argonModel ⟨Argon2Metadata.default, strBytes "pep"⟩
      (Argon2id.hash argonModel ⟨Argon2Metadata.default, strBytes "pep"⟩ 7
        [99] [97, 98]) [98, 99] [97] = true :=
  ⟨by decide, by decide,
   verify_accepts_concat_aliased_pair argonModel argonModel_verify_correct
     ⟨Argon2Metadata.default, strBytes "pep"⟩ 7 [99] [97, 98] [98, 99] [97]
     (by decide)⟩

/-- Witness for C7 at concrete strings: a 3-field string is malformed, a
well-shaped numeric string with variant `"XX"` hits the unknown-variant
error, and the serialization of the default metadata parses back. -/
theorem update_metadata_from_str_strict_witness :
    Argon2Metadata.update_metadata_from_str "Argon2,1,2" =
      Except.error MetadataError.malformed
  ∧ Argon2Metadata.update_metadata_from_str "Argon2,1,65536,4,32,16,utf-8,XX"
      = Except.error MetadataError.unknownVariant
  ∧ Argon2Metadata.update_metadata_from_str "Argon2,1,65536,4,32,16,utf-8,ID"
      = Except.ok Argon2Metadata.default :=
  ⟨(update_metadata_from_str_strict "Argon2,1,2").1 (by decide),
   ((update_metadata_from_str_strict "Argon2,1,65536,4,32,16,utf-8,XX").2
     "Argon2" "1" "65536" "4" "32" "16" "utf-8" "XX" (by decide)
     1 65536 4 32 16 (by decide) (by decide) (by decide) (by decide)
     (by decide)).1 rfl,
   ((update_metadata_from_str_strict "Argon2,1,65536,4,32,16,utf-8,ID").2
     "Argon2" "1" "65536" "4" "32" "16" "utf-8" "ID" (by decide)
     1 65536 4 32 16 (by decide) (by decide) (by decide) (by decide)
     (by decide)).2 ArgonType.ID rfl⟩

end EncryptedDB
